import Mathlib

/-!
Shallow embedding of src/intersect.py (sequential footprint allocation).

Modelling conventions:
- a polygonal geometry is idealised as a finite set of unit cells of one
  square meter each (Geom := Finset Nat); union, intersection, difference
  and emptiness of geometries are the corresponding finite-set operations,
  and area in square meters is the cardinality, taken in the rationals so
  that the division by 10000 (square meters to hectares) is exact;
- a loaded vector layer (a geopandas GeoDataFrame after _read_any_vector
  dropped null geometries and repaired the rest) is a list of feature
  geometries together with an optional CRS;
- reprojection (to_crs) relabels the CRS and, being idealised as
  area-true, keeps the cell set; this matches the intent of the code
  (reproject so that areas are meaningful) while staying abstract about
  projection math, which the code delegates to an external engine;
- Python ValueError is an explicit error value carrying the exact message
  string raised by the code, and functions that can raise return Except;
- every geometry-engine call made while processing one component file
  (reprojection, union, intersection, difference) is logged in an
  operation trace, so that frame conditions (which steps perform no
  geometry work) are statable.
-/

namespace SeqAlloc

deriving instance DecidableEq for Except

/-- Idealised polygonal geometry: a finite set of unit cells (1 m2 each). -/
abbrev Geom : Type := Finset ℕ

/-- Area of a geometry in square meters (exact, in the rationals). -/
def areaSqm (g : Geom) : ℚ := (g.card : ℚ)

/-- Area in hectares: square meters divided by 10000, as on line 112 of
src/intersect.py (allocated_geom.area / 10_000.0). -/
def areaHa (g : Geom) : ℚ := areaSqm g / 10000

/-- A coordinate reference system: an authority code plus the flag the code
reads as crs.is_geographic. -/
structure CRS where
  code : String
  is_geographic : Bool
deriving DecidableEq

/-- The CRS the code actually reprojects geographic layers to, line 36 of
src/intersect.py: to_crs of the string EPSG:5551, a projected CRS. -/
def EPSG5551 : CRS := ⟨"EPSG:5551", false⟩

/-- The constant documented in the docstring of _ensure_projected_equal_area,
line 30 of src/intersect.py: reproject to World Cylindrical Equal Area,
EPSG:6933, a projected equal-area CRS. -/
def documentedEqualAreaCRS : CRS := ⟨"EPSG:6933", false⟩

/-- A loaded vector layer: feature geometries (null geometries already
dropped by _read_any_vector) plus an optional declared CRS. -/
structure GeoDataFrame where
  features : List Geom
  crs : Option CRS
deriving DecidableEq

/-- Reprojection: relabel the CRS; the idealised cell set is unchanged. -/
def GeoDataFrame.to_crs (gdf : GeoDataFrame) (target : CRS) : GeoDataFrame :=
  { gdf with crs := some target }

/-- Python ValueError with its message. -/
inductive PyError where
  | valueError (msg : String)
deriving DecidableEq

/-- Message of the missing-CRS error raised on line 33 of src/intersect.py. -/
def missingCRSMsg : String :=
  "Input layer has no CRS defined. Please define CRS before running."

/-- Message of the empty-master error raised on line 69 of src/intersect.py. -/
def emptyMasterMsg : String := "Master footprint is empty."

/-- Message of the component missing-CRS error raised on line 98 of
src/intersect.py (an f-string carrying the component path). -/
def componentMissingCRSMsg (path : String) : String :=
  "Component has no CRS: " ++ path

/-- The predicate picking out the two missing-CRS errors of the program. -/
def isMissingCRSErr : PyError → Prop
  | .valueError m => m = missingCRSMsg ∨ ∃ p, m = componentMissingCRSMsg p

/-- Embedding of _ensure_projected_equal_area, lines 25-37 of
src/intersect.py: raise on a missing CRS, reproject a geographic CRS to
EPSG:5551, pass a projected CRS through unchanged. -/
def ensure_projected_equal_area (gdf : GeoDataFrame) : Except PyError GeoDataFrame :=
  match gdf.crs with
  | none => .error (.valueError missingCRSMsg)
  | some c => if c.is_geographic then .ok (gdf.to_crs EPSG5551) else .ok gdf

/-- One component shapefile as the loop sees it: its path (used for
sorting), the two path-derived names pathlib would produce (parent
directory name and stem), and its loaded contents. -/
structure SourceFile where
  path : String
  parentName : String
  stem : String
  gdf : GeoDataFrame
deriving DecidableEq

/-- Layer naming, lines 86-89 of src/intersect.py: the stem when
layer_name_from equals the string filename, else the parent folder name. -/
def layerNameOf (layer_name_from : String) (f : SourceFile) : String :=
  if layer_name_from = "filename" then f.stem else f.parentName

/-- One allocation record, as appended on lines 93 and 116 of
src/intersect.py. -/
structure Record where
  layer : String
  area_ha : ℚ
deriving DecidableEq

/-- union_all of geopandas: dissolve all features into one geometry. -/
def unionAll (gs : List Geom) : Geom := gs.foldl (fun a b => a ∪ b) ∅

/-- Tags for the geometry-engine calls made while processing one file. -/
inductive GeomOp where
  | reproject
  | union
  | intersection
  | difference
deriving DecidableEq

/-- Result of processing one component file: the appended record, the
local variable allocated_geom (empty in the empty-component branch, where
the code never computes it), the value of master_union after the step, and
the trace of geometry-engine calls made for this file. -/
structure StepOut where
  record : Record
  allocated : Geom
  remaining : Geom
  ops : List GeomOp
deriving DecidableEq

/-- Embedding of one iteration of the loop on lines 83-120 of
src/intersect.py, minus the early-break test: name the layer; an empty
component records 0.0 and does no geometry work (lines 91-94); otherwise a
missing CRS raises (lines 97-98), the component is reprojected to the
master CRS when different (lines 99-100), normalised (line 102), unioned
(line 103) and intersected with the remaining master (line 106); an empty
intersection records 0.0 and leaves the remaining master unchanged, a
non-empty one records its area in hectares and is subtracted from the
remaining master (lines 108-116). -/
def processComponent (layer_name_from : String) (masterCrs : CRS)
    (remaining : Geom) (f : SourceFile) : Except PyError StepOut :=
  let layer_name := layerNameOf layer_name_from f
  if f.gdf.features.isEmpty then
    .ok ⟨⟨layer_name, 0⟩, ∅, remaining, []⟩
  else
    match f.gdf.crs with
    | none => .error (.valueError (componentMissingCRSMsg f.path))
    | some c =>
      let comp1 := if c ≠ masterCrs then f.gdf.to_crs masterCrs else f.gdf
      let reprojOps : List GeomOp := if c ≠ masterCrs then [.reproject] else []
      match ensure_projected_equal_area comp1 with
      | .error e => .error e
      | .ok comp2 =>
        let ensureOps : List GeomOp :=
          match comp1.crs with
          | some c1 => if c1.is_geographic then [.reproject] else []
          | none => []
        let comp_union := unionAll comp2.features
        let allocated := comp_union ∩ remaining
        if allocated = ∅ then
          .ok ⟨⟨layer_name, 0⟩, allocated, remaining,
            reprojOps ++ ensureOps ++ [.union, .intersection]⟩
        else
          .ok ⟨⟨layer_name, areaHa allocated⟩, allocated, remaining \ allocated,
            reprojOps ++ ensureOps ++ [.union, .intersection, .difference]⟩

/-- The sequential allocation loop, lines 83-120 of src/intersect.py:
process the files in order, threading master_union forward and collecting
the records. The empty-component branch ends in continue (line 94), which
skips the early-break test of lines 118-120, so that test is applied only
after a step on a non-empty component; after such a step the loop breaks
as soon as master_union is empty, even if it already was. Returns the
records together with the final value of master_union. -/
def allocLoop (layer_name_from : String) (masterCrs : CRS)
    (remaining : Geom) : List SourceFile → Except PyError (List Record × Geom)
  | [] => .ok ([], remaining)
  | f :: rest =>
    match processComponent layer_name_from masterCrs remaining f with
    | .error e => .error e
    | .ok out =>
      if f.gdf.features.isEmpty then
        match allocLoop layer_name_from masterCrs out.remaining rest with
        | .error e => .error e
        | .ok (rs, remF) => .ok (out.record :: rs, remF)
      else if out.remaining = ∅ then .ok ([out.record], out.remaining)
      else
        match allocLoop layer_name_from masterCrs out.remaining rest with
        | .error e => .error e
        | .ok (rs, remF) => .ok (out.record :: rs, remF)

/-- Lexicographic path comparison used by sorted on line 78 of
src/intersect.py (Python compares strings by code points, as Lean does). -/
def pathLe (a b : SourceFile) : Bool := decide (a.path ≤ b.path)

/-- sorted(shp_paths), line 78 of src/intersect.py. -/
def sortFiles (fs : List SourceFile) : List SourceFile := fs.mergeSort pathLe

/-- String comparison for the sorted group keys of the final groupby. -/
def strLe (a b : String) : Bool := decide (a ≤ b)

/-- Round to one decimal place, line 128 of src/intersect.py
(df.round(1)); tie behaviour of the float rounding is idealised by the
integer rounding of Mathlib, which no claim depends on. -/
def round1 (q : ℚ) : ℚ := (round (q * 10) : ℤ) / 10

/-- Embedding of lines 122-128 of src/intersect.py: group the records by
layer name (pandas groupby sorts the group keys), sum area_ha within each
group, then round each total to one decimal place. -/
def aggregate (rs : List Record) : List (String × ℚ) :=
  (((rs.map Record.layer).dedup).mergeSort strLe).map
    (fun n => (n, round1 (((rs.filter (fun r => decide (r.layer = n))).map Record.area_ha).sum)))

/-- Embedding of allocate_non_overlapping_areas, lines 40-130 of
src/intersect.py, with file discovery already done: the caller passes the
loaded master layer and the loaded component files (in rglob order).
Raise on an empty master (lines 68-69); normalise the master CRS
(line 71); dissolve the master (line 73); sort the component files when
sort_layers is set (lines 77-78); run the sequential allocation loop
(lines 83-120); aggregate and round (lines 122-128). The inner none
branch is unreachable: a normalised layer always carries a CRS, and it
returns the same error that the normaliser itself would have raised. -/
def allocate_non_overlapping_areas (layer_name_from : String) (sort_layers : Bool)
    (components : List SourceFile) (master : GeoDataFrame) :
    Except PyError (List (String × ℚ)) :=
  if master.features.isEmpty then
    .error (.valueError emptyMasterMsg)
  else
    match ensure_projected_equal_area master with
    | .error e => .error e
    | .ok masterN =>
      match masterN.crs with
      | none => .error (.valueError missingCRSMsg)
      | some mc =>
        let master_union := unionAll masterN.features
        let files := if sort_layers then sortFiles components else components
        match allocLoop layer_name_from mc master_union files with
        | .error e => .error e
        | .ok (results, _) => .ok (aggregate results)

end SeqAlloc

namespace SeqAlloc

/-! ## General facts about the embedded geometry engine -/

theorem unionAll_nil : unionAll [] = (∅ : Geom) := rfl

theorem unionAll_singleton (g : Geom) : unionAll [g] = g := by
  simp [unionAll]

theorem areaHa_empty : areaHa ∅ = 0 := by simp [areaHa, areaSqm]

theorem areaHa_nonneg (g : Geom) : 0 ≤ areaHa g := by
  unfold areaHa areaSqm
  positivity

theorem areaHa_sdiff {s t : Geom} (h : s ⊆ t) :
    areaHa (t \ s) = areaHa t - areaHa s := by
  have hc : ((t \ s).card : ℚ) + (s.card : ℚ) = (t.card : ℚ) := by
    exact_mod_cast Finset.card_sdiff_add_card_eq_card h
  unfold areaHa areaSqm
  field_simp
  linarith

/-! ## Facts about the CRS guard -/

theorem ensure_eq_of_crs {gdf : GeoDataFrame} {c : CRS} (hc : gdf.crs = some c) :
    ensure_projected_equal_area gdf =
      if c.is_geographic = true then .ok (gdf.to_crs EPSG5551) else .ok gdf := by
  unfold ensure_projected_equal_area
  rw [hc]

theorem ensure_ok_facts {gdf gdf' : GeoDataFrame}
    (h : ensure_projected_equal_area gdf = .ok gdf') :
    gdf'.features = gdf.features ∧ ∃ c, gdf'.crs = some c ∧ c.is_geographic = false := by
  rcases hc : gdf.crs with _ | c
  · unfold ensure_projected_equal_area at h
    rw [hc] at h
    cases h
  · rw [ensure_eq_of_crs hc] at h
    by_cases hg : c.is_geographic = true
    · rw [if_pos hg] at h
      simp only [Except.ok.injEq] at h
      subst h
      exact ⟨rfl, EPSG5551, rfl, rfl⟩
    · rw [if_neg hg] at h
      simp only [Except.ok.injEq] at h
      subst h
      exact ⟨rfl, c, hc, by simpa using hg⟩

theorem ensure_comp_ok (f : SourceFile) (mc c : CRS) (hc : f.gdf.crs = some c) :
    ∃ comp2, ensure_projected_equal_area (if c ≠ mc then f.gdf.to_crs mc else f.gdf) = .ok comp2 ∧
      comp2.features = f.gdf.features := by
  by_cases hcm : c = mc
  · rw [if_neg (by simp [hcm])]
    rw [ensure_eq_of_crs hc]
    by_cases hg : c.is_geographic = true
    · exact ⟨f.gdf.to_crs EPSG5551, by rw [if_pos hg], rfl⟩
    · exact ⟨f.gdf, by rw [if_neg hg], rfl⟩
  · rw [if_pos hcm]
    rw [ensure_eq_of_crs (show (f.gdf.to_crs mc).crs = some mc from rfl)]
    by_cases hg : mc.is_geographic = true
    · exact ⟨(f.gdf.to_crs mc).to_crs EPSG5551, by rw [if_pos hg], rfl⟩
    · exact ⟨f.gdf.to_crs mc, by rw [if_neg hg], rfl⟩

/-! ## Facts about one step of the allocation loop -/

theorem processComponent_empty {lnf : String} {mc : CRS} {rem : Geom} {f : SourceFile}
    (hf : f.gdf.features = []) :
    processComponent lnf mc rem f = .ok ⟨⟨layerNameOf lnf f, 0⟩, ∅, rem, []⟩ := by
  unfold processComponent
  rw [hf]
  rfl

theorem processComponent_ok_facts {lnf : String} {mc : CRS} {rem : Geom} {f : SourceFile}
    {out : StepOut} (h : processComponent lnf mc rem f = .ok out) :
    out.record.layer = layerNameOf lnf f ∧
    out.allocated = unionAll f.gdf.features ∩ rem ∧
    out.remaining = rem \ out.allocated ∧
    out.record.area_ha = areaHa out.allocated := by
  by_cases hfe : f.gdf.features = []
  · rw [processComponent_empty hfe] at h
    simp only [Except.ok.injEq] at h
    subst h
    exact ⟨rfl, by simp [hfe, unionAll_nil], by simp, by simp [areaHa_empty]⟩
  · have hfe' : f.gdf.features.isEmpty = false := by simpa using hfe
    rcases hc : f.gdf.crs with _ | c
    · unfold processComponent at h
      simp [hfe', hc] at h
    · obtain ⟨comp2, hok, hfeat⟩ := ensure_comp_ok f mc c hc
      unfold processComponent at h
      simp only [hfe', Bool.false_eq_true, if_false, hc, hok, hfeat] at h
      split at h
      · simp only [Except.ok.injEq] at h
        subst h
        next hemp => exact ⟨rfl, rfl, by simp [hemp], by simp [hemp, areaHa_empty]⟩
      · simp only [Except.ok.injEq] at h
        subst h
        exact ⟨rfl, rfl, rfl, rfl⟩

theorem processComponent_some_ok (lnf : String) (mc : CRS) (rem : Geom) (f : SourceFile)
    (c : CRS) (hc : f.gdf.crs = some c) :
    ∃ out, processComponent lnf mc rem f = .ok out := by
  by_cases hfe : f.gdf.features = []
  · exact ⟨_, processComponent_empty hfe⟩
  · have hfe' : f.gdf.features.isEmpty = false := by simpa using hfe
    obtain ⟨comp2, hok, hfeat⟩ := ensure_comp_ok f mc c hc
    unfold processComponent
    simp only [hfe', Bool.false_eq_true, if_false, hc, hok]
    by_cases halloc : unionAll comp2.features ∩ rem = ∅ <;> simp [halloc]

theorem processComponent_error_iff (lnf : String) (mc : CRS) (rem : Geom) (f : SourceFile)
    (e : PyError) :
    processComponent lnf mc rem f = .error e ↔
      f.gdf.features ≠ [] ∧ f.gdf.crs = none ∧
        e = .valueError (componentMissingCRSMsg f.path) := by
  constructor
  · intro h
    by_cases hfe : f.gdf.features = []
    · rw [processComponent_empty hfe] at h; cases h
    · refine ⟨hfe, ?_⟩
      rcases hc : f.gdf.crs with _ | c
      · have hfe' : f.gdf.features.isEmpty = false := by simpa using hfe
        unfold processComponent at h
        simp only [hfe', Bool.false_eq_true, if_false, hc, Except.error.injEq] at h
        exact ⟨rfl, h.symm⟩
      · obtain ⟨out, ho⟩ := processComponent_some_ok lnf mc rem f c hc
        rw [ho] at h; cases h
  · rintro ⟨hne, hc, he⟩
    subst he
    have hfe' : f.gdf.features.isEmpty = false := by simpa using hne
    unfold processComponent
    simp only [hfe', Bool.false_eq_true, if_false, hc]

end SeqAlloc

namespace SeqAlloc

/-! ## Facts about the allocation loop and the full run -/

theorem allocLoop_ok_facts (lnf : String) (mc : CRS) :
    ∀ (fs : List SourceFile) (rem : Geom) (rs : List Record) (remF : Geom),
      allocLoop lnf mc rem fs = .ok (rs, remF) →
      remF ⊆ rem ∧ (rs.map Record.area_ha).sum = areaHa rem - areaHa remF := by
  intro fs
  induction fs with
  | nil =>
    intro rem rs remF h
    unfold allocLoop at h
    simp only [Except.ok.injEq, Prod.mk.injEq] at h
    obtain ⟨h1, h2⟩ := h
    subst h1; subst h2
    simp
  | cons f rest ih =>
    intro rem rs remF h
    unfold allocLoop at h
    split at h
    · cases h
    next out hstep =>
      have ⟨hl, ha, hr, har⟩ := processComponent_ok_facts hstep
      have hsub : out.allocated ⊆ rem := by rw [ha]; exact Finset.inter_subset_right
      have hrem : areaHa out.remaining = areaHa rem - areaHa out.allocated := by
        rw [hr]; exact areaHa_sdiff hsub
      have hremsub : out.remaining ⊆ rem := by rw [hr]; exact Finset.sdiff_subset
      split at h
      · split at h
        · cases h
        next rs' remF' hrec =>
          simp only [Except.ok.injEq, Prod.mk.injEq] at h
          obtain ⟨h1, h2⟩ := h
          subst h1; subst h2
          obtain ⟨ihsub, ihsum⟩ := ih out.remaining rs' remF' hrec
          refine ⟨ihsub.trans hremsub, ?_⟩
          simp [har, ihsum]
          linarith
      · split at h
        · simp only [Except.ok.injEq, Prod.mk.injEq] at h
          obtain ⟨h1, h2⟩ := h
          subst h1; subst h2
          refine ⟨hremsub, ?_⟩
          simp [har]
          linarith
        · split at h
          · cases h
          next rs' remF' hrec =>
            simp only [Except.ok.injEq, Prod.mk.injEq] at h
            obtain ⟨h1, h2⟩ := h
            subst h1; subst h2
            obtain ⟨ihsub, ihsum⟩ := ih out.remaining rs' remF' hrec
            refine ⟨ihsub.trans hremsub, ?_⟩
            simp [har, ihsum]
            linarith

theorem allocLoop_error_facts (lnf : String) (mc : CRS) :
    ∀ (fs : List SourceFile) (rem : Geom) (e : PyError),
      allocLoop lnf mc rem fs = .error e →
      ∃ f ∈ fs, f.gdf.features ≠ [] ∧ f.gdf.crs = none ∧
        e = .valueError (componentMissingCRSMsg f.path) := by
  intro fs
  induction fs with
  | nil => intro rem e h; cases h
  | cons f rest ih =>
    intro rem e h
    unfold allocLoop at h
    split at h
    next e' hstep =>
      simp only [Except.error.injEq] at h
      subst h
      obtain ⟨hne, hc, he⟩ := (processComponent_error_iff lnf mc rem f e').mp hstep
      exact ⟨f, List.mem_cons_self f rest, hne, hc, he⟩
    next out hstep =>
      split at h
      · split at h
        next e' hrec =>
          simp only [Except.error.injEq] at h
          subst h
          obtain ⟨g, hg, hfacts⟩ := ih out.remaining e' hrec
          exact ⟨g, List.mem_cons_of_mem f hg, hfacts⟩
        next => cases h
      · split at h
        · cases h
        · split at h
          next e' hrec =>
            simp only [Except.error.injEq] at h
            subst h
            obtain ⟨g, hg, hfacts⟩ := ih out.remaining e' hrec
            exact ⟨g, List.mem_cons_of_mem f hg, hfacts⟩
          next => cases h

theorem allocLoop_head_noCRS (lnf : String) (mc : CRS) (rem : Geom) (f : SourceFile)
    (rest : List SourceFile) (hne : f.gdf.features ≠ []) (hc : f.gdf.crs = none) :
    allocLoop lnf mc rem (f :: rest) =
      .error (.valueError (componentMissingCRSMsg f.path)) := by
  unfold allocLoop
  rw [(processComponent_error_iff lnf mc rem f _).mpr ⟨hne, hc, rfl⟩]

theorem allocate_empty_master (lnf : String) (sl : Bool) (fs : List SourceFile)
    (master : GeoDataFrame) (hfe : master.features = []) :
    allocate_non_overlapping_areas lnf sl fs master =
      .error (.valueError emptyMasterMsg) := by
  unfold allocate_non_overlapping_areas
  rw [hfe]
  rfl

theorem allocate_master_noCRS (lnf : String) (sl : Bool) (fs : List SourceFile)
    (master : GeoDataFrame) (hne : master.features ≠ []) (hc : master.crs = none) :
    allocate_non_overlapping_areas lnf sl fs master =
      .error (.valueError missingCRSMsg) := by
  have hfe : master.features.isEmpty = false := by simpa using hne
  have hens : ensure_projected_equal_area master = .error (.valueError missingCRSMsg) := by
    unfold ensure_projected_equal_area
    rw [hc]
  unfold allocate_non_overlapping_areas
  simp only [hfe, Bool.false_eq_true, if_false, hens]

/-! ## Facts about the processing order -/

theorem pathLe_trans : ∀ a b c : SourceFile,
    pathLe a b = true → pathLe b c = true → pathLe a c = true := by
  intro a b c h1 h2
  simp only [pathLe, decide_eq_true_eq] at h1 h2 ⊢
  exact le_trans h1 h2

theorem pathLe_total : ∀ a b : SourceFile, (pathLe a b || pathLe b a) = true := by
  intro a b
  simp only [pathLe, Bool.or_eq_true, decide_eq_true_eq]
  exact le_total a.path b.path

theorem sortFiles_perm (fs : List SourceFile) : (sortFiles fs).Perm fs :=
  List.mergeSort_perm fs pathLe

theorem sortFiles_sorted (fs : List SourceFile) :
    List.Sorted (fun a b : SourceFile => a.path ≤ b.path) (sortFiles fs) := by
  have h := List.sorted_mergeSort pathLe_trans pathLe_total fs
  exact h.imp (fun hab => by simpa [pathLe] using hab)

theorem allocate_error_facts (lnf : String) (sl : Bool) (fs : List SourceFile)
    (master : GeoDataFrame) (e : PyError)
    (h : allocate_non_overlapping_areas lnf sl fs master = .error e) :
    (master.features = [] ∧ e = .valueError emptyMasterMsg) ∨
    (master.features ≠ [] ∧ master.crs = none ∧ e = .valueError missingCRSMsg) ∨
    (∃ f ∈ fs, f.gdf.features ≠ [] ∧ f.gdf.crs = none ∧
      e = .valueError (componentMissingCRSMsg f.path)) := by
  by_cases hfe : master.features = []
  · rw [allocate_empty_master lnf sl fs master hfe] at h
    simp only [Except.error.injEq] at h
    exact Or.inl ⟨hfe, h.symm⟩
  · have hfe' : master.features.isEmpty = false := by simpa using hfe
    rcases hc : master.crs with _ | c
    · rw [allocate_master_noCRS lnf sl fs master hfe hc] at h
      simp only [Except.error.injEq] at h
      exact Or.inr (Or.inl ⟨hfe, rfl, h.symm⟩)
    · refine Or.inr (Or.inr ?_)
      obtain ⟨masterN, hens⟩ : ∃ m, ensure_projected_equal_area master = .ok m := by
        rw [ensure_eq_of_crs hc]
        by_cases hg : c.is_geographic = true
        · rw [if_pos hg]; exact ⟨_, rfl⟩
        · rw [if_neg hg]; exact ⟨_, rfl⟩
      obtain ⟨hfeat, mc2, hcrs, _⟩ := ensure_ok_facts hens
      unfold allocate_non_overlapping_areas at h
      rw [hens] at h
      simp only [hfe', Bool.false_eq_true, if_false, hcrs] at h
      split at h
      next e2 hrec =>
        simp only [Except.error.injEq] at h
        subst h
        obtain ⟨f, hf, hfacts⟩ := allocLoop_error_facts lnf mc2 _ _ e2 hrec
        refine ⟨f, ?_, hfacts⟩
        rcases sl with _ | _
        · simpa using hf
        · exact ((sortFiles_perm fs).mem_iff).mp (by simpa using hf)
      next => cases h

/-! ## Facts about the error messages -/

theorem take22_componentMsg (p : String) :
    ((componentMissingCRSMsg p).data).take 22 = "Component has no CRS: ".data := by
  unfold componentMissingCRSMsg
  rw [String.data_append]
  exact List.take_left' (by decide)

theorem ne_componentMsg_of_take (s : String)
    (hs : s.data.take 22 ≠ "Component has no CRS: ".data) :
    ∀ p, s ≠ componentMissingCRSMsg p := by
  intro p h
  exact hs (by rw [h]; exact take22_componentMsg p)

theorem emptyMaster_not_missingCRS : ¬ isMissingCRSErr (.valueError emptyMasterMsg) := by
  unfold isMissingCRSErr
  rintro (h | ⟨p, hp⟩)
  · exact absurd h (by decide)
  · exact ne_componentMsg_of_take emptyMasterMsg (by decide) p hp

theorem missingCRSMsg_ne_componentMsg (p : String) :
    missingCRSMsg ≠ componentMissingCRSMsg p :=
  ne_componentMsg_of_take missingCRSMsg (by decide) p

end SeqAlloc

namespace SeqAlloc

/-! ## Remaining order and aggregation helpers -/

theorem sorted_perm_paths_nodup_eq (l1 : List SourceFile) :
    ∀ l2 : List SourceFile, l1.Perm l2 →
      List.Sorted (fun a b : SourceFile => a.path ≤ b.path) l1 →
      List.Sorted (fun a b : SourceFile => a.path ≤ b.path) l2 →
      (l1.map SourceFile.path).Nodup → l1 = l2 := by
  induction l1 with
  | nil =>
    intro l2 hp _ _ _
    exact hp.nil_eq
  | cons a t1 ih =>
    intro l2 hp hs1 hs2 hnd
    rcases l2 with _ | ⟨b, t2⟩
    · exact absurd hp.symm.nil_eq (by simp)
    · simp only [List.map_cons, List.nodup_cons] at hnd
      have hab : a = b := by
        by_contra hne
        have ha2 : a ∈ b :: t2 := hp.mem_iff.mp (List.mem_cons_self a t1)
        have hb1 : b ∈ a :: t1 := hp.mem_iff.mpr (List.mem_cons_self b t2)
        have ha' : a ∈ t2 := by
          rcases List.mem_cons.mp ha2 with h | h
          · exact absurd h hne
          · exact h
        have hb' : b ∈ t1 := by
          rcases List.mem_cons.mp hb1 with h | h
          · exact absurd h.symm hne
          · exact h
        have h1 : a.path ≤ b.path := (List.sorted_cons.mp hs1).1 b hb'
        have h2 : b.path ≤ a.path := (List.sorted_cons.mp hs2).1 a ha'
        have heq : a.path = b.path := le_antisymm h1 h2
        exact hnd.1 (heq ▸ List.mem_map_of_mem SourceFile.path hb')
      subst hab
      have ht : t1 = t2 :=
        ih t2 hp.cons_inv (List.sorted_cons.mp hs1).2 (List.sorted_cons.mp hs2).2 hnd.2
      rw [ht]

theorem sortFiles_congr {fs fs' : List SourceFile} (hp : fs.Perm fs')
    (hnd : (fs.map SourceFile.path).Nodup) : sortFiles fs = sortFiles fs' :=
  sorted_perm_paths_nodup_eq (sortFiles fs) (sortFiles fs')
    ((sortFiles_perm fs).trans (hp.trans (sortFiles_perm fs').symm))
    (sortFiles_sorted fs) (sortFiles_sorted fs')
    (((sortFiles_perm fs).map SourceFile.path).symm.nodup hnd)

theorem allocate_sorted_eq (lnf : String) (fs : List SourceFile)
    (master : GeoDataFrame) :
    allocate_non_overlapping_areas lnf true fs master =
      allocate_non_overlapping_areas lnf false (sortFiles fs) master := rfl

theorem aggregate_keys (rs : List Record) :
    (aggregate rs).map Prod.fst = ((rs.map Record.layer).dedup).mergeSort strLe := by
  unfold aggregate
  rw [List.map_map]
  exact List.map_id _

theorem aggregate_pair (n : String) (a b : ℚ) :
    aggregate [⟨n, a⟩, ⟨n, b⟩] = [(n, round1 (a + b))] := by
  unfold aggregate
  have hd : (([⟨n, a⟩, ⟨n, b⟩] : List Record).map Record.layer).dedup = [n] := by
    simp
  rw [hd, List.perm_singleton.mp (List.mergeSort_perm [n] strLe)]
  simp

theorem round1_distinction :
    round1 ((3 : ℚ)/100) + round1 ((3 : ℚ)/100) ≠ round1 ((3 : ℚ)/100 + (3 : ℚ)/100) := by
  have h1 : round1 ((3 : ℚ)/100) = 0 := by
    unfold round1
    norm_num [round_eq]
  have h2 : round1 ((3 : ℚ)/100 + (3 : ℚ)/100) = 1/10 := by
    unfold round1
    norm_num [round_eq]
  rw [h1, h2]
  norm_num

/-! ## Auxiliary for the order-sensitivity claim -/

theorem firstWinsAux (lnf : String) (mc : CRS) (M g1 g2 : Geom) (f1 f2 : SourceFile)
    (h1 : f1.gdf = ⟨[g1], some mc⟩) (h2 : f2.gdf = ⟨[g2], some mc⟩)
    (hov : g1 ∩ g2 ⊆ M) :
    ∃ o1 o2, processComponent lnf mc M f1 = .ok o1 ∧
      processComponent lnf mc o1.remaining f2 = .ok o2 ∧
      g1 ∩ g2 ⊆ o1.allocated ∧ o2.allocated ∩ (g1 ∩ g2) = ∅ := by
  obtain ⟨o1, ho1⟩ := processComponent_some_ok lnf mc M f1 mc (by rw [h1])
  obtain ⟨o2, ho2⟩ := processComponent_some_ok lnf mc o1.remaining f2 mc (by rw [h2])
  obtain ⟨_, ha1, hr1, _⟩ := processComponent_ok_facts ho1
  obtain ⟨_, ha2, hr2, _⟩ := processComponent_ok_facts ho2
  have hg1 : unionAll f1.gdf.features = g1 := by rw [h1]; exact unionAll_singleton g1
  have hg2 : unionAll f2.gdf.features = g2 := by rw [h2]; exact unionAll_singleton g2
  rw [hg1] at ha1
  rw [hg2] at ha2
  refine ⟨o1, o2, ho1, ho2, ?_, ?_⟩
  · rw [ha1]
    intro x hx
    have hx' := Finset.mem_inter.mp hx
    exact Finset.mem_inter.mpr ⟨hx'.1, hov hx⟩
  · rw [ha2, hr1, ha1]
    ext x
    simp only [Finset.mem_inter, Finset.mem_sdiff, Finset.not_mem_empty, iff_false, not_and]
    intro hxg2 hxg1 _
    exact absurd hxg2.2.1 (hxg2.2.2 hxg1)

end SeqAlloc

namespace SeqAlloc

/-! ## The claims -/

/-- C1: conservation and non-overlap. Over any run of the sequential
allocation loop (started on the dissolved master footprint, or on any
remaining state) that returns records rs and final remaining state remF,
the sum of the recorded area_ha values equals the starting area minus
the final remaining area, and therefore never exceeds the starting area.
Areas are exact rationals in this embedding, so no floating-point
tolerance is needed. -/
theorem allocation_conserves_master_area (lnf : String) (mc : CRS)
    (fs : List SourceFile) (rem0 : Geom) (rs : List Record) (remF : Geom)
    (h : allocLoop lnf mc rem0 fs = .ok (rs, remF)) :
    (rs.map Record.area_ha).sum = areaHa rem0 - areaHa remF ∧
    (rs.map Record.area_ha).sum ≤ areaHa rem0 := by
  obtain ⟨hsub, hsum⟩ := allocLoop_ok_facts lnf mc fs rem0 rs remF h
  refine ⟨hsum, ?_⟩
  have := areaHa_nonneg remF
  linarith

/-- Witness for C1 at a concrete input: one component covering one of the
two cells of the master. -/
theorem allocation_conserves_master_area_witness :
    ∃ rs remF,
      allocLoop "parent_folder" ⟨"EPSG:5551", false⟩ {0, 1}
          [⟨"a", "pa", "a", ⟨[{0}], some ⟨"EPSG:5551", false⟩⟩⟩] = .ok (rs, remF) ∧
      (rs.map Record.area_ha).sum = areaHa ({0, 1} : Geom) - areaHa remF ∧
      (rs.map Record.area_ha).sum ≤ areaHa ({0, 1} : Geom) := by
  obtain ⟨rs, remF, h⟩ :
      ∃ rs remF,
        allocLoop "parent_folder" ⟨"EPSG:5551", false⟩ {0, 1}
            [⟨"a", "pa", "a", ⟨[{0}], some ⟨"EPSG:5551", false⟩⟩⟩] = .ok (rs, remF) :=
    ⟨_, _, rfl⟩
  exact ⟨rs, remF, h, allocation_conserves_master_area _ _ _ _ _ _ h⟩

/-- C2: per-step allocation postcondition. For a non-empty component that
is processed successfully, the allocated geometry is the intersection of
the dissolved component with the remaining master; if that intersection
is empty the recorded area is exactly 0 and the remaining state is
unchanged, otherwise the recorded area is the allocated area in square
meters divided by 10000 and the new remaining state is the difference of
the old one and the allocated geometry. -/
theorem per_step_allocation_postcondition (lnf : String) (mc : CRS) (rem : Geom)
    (f : SourceFile) (out : StepOut) (hne : f.gdf.features ≠ [])
    (h : processComponent lnf mc rem f = .ok out) :
    out.allocated = unionAll f.gdf.features ∩ rem ∧
    (out.allocated = ∅ → out.record.area_ha = 0 ∧ out.remaining = rem) ∧
    (out.allocated ≠ ∅ →
      out.record.area_ha = areaSqm out.allocated / 10000 ∧
      out.remaining = rem \ out.allocated) := by
  obtain ⟨hl, ha, hr, har⟩ := processComponent_ok_facts h
  refine ⟨ha, fun he => ⟨by rw [har, he, areaHa_empty], by rw [hr, he, Finset.sdiff_empty]⟩,
    fun _ => ⟨by rw [har]; rfl, hr⟩⟩

/-- Witness for C2 at a concrete input: a one-feature component meeting a
two-cell remaining master in one cell. -/
theorem per_step_allocation_postcondition_witness :
    ∃ out,
      processComponent "parent_folder" ⟨"EPSG:5551", false⟩ {0, 1}
          ⟨"a", "pa", "a", ⟨[{0}], some ⟨"EPSG:5551", false⟩⟩⟩ = .ok out ∧
      (out.allocated =
        unionAll (⟨"a", "pa", "a", ⟨[{0}], some ⟨"EPSG:5551", false⟩⟩⟩ : SourceFile).gdf.features ∩
          {0, 1} ∧
      (out.allocated = ∅ → out.record.area_ha = 0 ∧ out.remaining = {0, 1}) ∧
      (out.allocated ≠ ∅ →
        out.record.area_ha = areaSqm out.allocated / 10000 ∧
        out.remaining = {0, 1} \ out.allocated)) := by
  obtain ⟨out, h⟩ :
      ∃ out,
        processComponent "parent_folder" ⟨"EPSG:5551", false⟩ {0, 1}
            ⟨"a", "pa", "a", ⟨[{0}], some ⟨"EPSG:5551", false⟩⟩⟩ = .ok out :=
    ⟨_, rfl⟩
  exact ⟨out, h, per_step_allocation_postcondition _ _ _ _ _ (by simp) h⟩

/-- C3: first-in-order wins. When the source geometries of two components
overlap entirely within the master, the component processed first is
allocated the whole overlap region (the overlap lies inside its
allocated geometry) and the component processed second is allocated none
of it (its allocated geometry is disjoint from the overlap); swapping
the processing order swaps the two roles exactly. -/
theorem first_in_order_wins (lnf : String) (mc : CRS) (M gA gB : Geom)
    (fA fB : SourceFile) (hA : fA.gdf = ⟨[gA], some mc⟩) (hB : fB.gdf = ⟨[gB], some mc⟩)
    (hov : gA ∩ gB ⊆ M) :
    (∃ o1 o2, processComponent lnf mc M fA = .ok o1 ∧
      processComponent lnf mc o1.remaining fB = .ok o2 ∧
      gA ∩ gB ⊆ o1.allocated ∧ o2.allocated ∩ (gA ∩ gB) = ∅) ∧
    (∃ o1 o2, processComponent lnf mc M fB = .ok o1 ∧
      processComponent lnf mc o1.remaining fA = .ok o2 ∧
      gA ∩ gB ⊆ o1.allocated ∧ o2.allocated ∩ (gA ∩ gB) = ∅) := by
  refine ⟨firstWinsAux lnf mc M gA gB fA fB hA hB hov, ?_⟩
  obtain ⟨o1, o2, h1, h2, hsub, hdisj⟩ :=
    firstWinsAux lnf mc M gB gA fB fA hB hA (by rwa [Finset.inter_comm])
  rw [Finset.inter_comm gB gA] at hsub hdisj
  exact ⟨o1, o2, h1, h2, hsub, hdisj⟩

/-- Witness for C3 at a concrete input: two two-cell components
overlapping in one cell inside a four-cell master. -/
theorem first_in_order_wins_witness :
    (∃ o1 o2, processComponent "parent_folder" ⟨"EPSG:5551", false⟩ {0, 1, 2, 3}
        (⟨"a", "pa", "a", ⟨[{0, 1}], some ⟨"EPSG:5551", false⟩⟩⟩ : SourceFile) = .ok o1 ∧
      processComponent "parent_folder" ⟨"EPSG:5551", false⟩ o1.remaining
        (⟨"b", "pb", "b", ⟨[{1, 2}], some ⟨"EPSG:5551", false⟩⟩⟩ : SourceFile) = .ok o2 ∧
      ({0, 1} : Geom) ∩ {1, 2} ⊆ o1.allocated ∧
      o2.allocated ∩ (({0, 1} : Geom) ∩ {1, 2}) = ∅) ∧
    (∃ o1 o2, processComponent "parent_folder" ⟨"EPSG:5551", false⟩ {0, 1, 2, 3}
        (⟨"b", "pb", "b", ⟨[{1, 2}], some ⟨"EPSG:5551", false⟩⟩⟩ : SourceFile) = .ok o1 ∧
      processComponent "parent_folder" ⟨"EPSG:5551", false⟩ o1.remaining
        (⟨"a", "pa", "a", ⟨[{0, 1}], some ⟨"EPSG:5551", false⟩⟩⟩ : SourceFile) = .ok o2 ∧
      ({0, 1} : Geom) ∩ {1, 2} ⊆ o1.allocated ∧
      o2.allocated ∩ (({0, 1} : Geom) ∩ {1, 2}) = ∅) :=
  first_in_order_wins "parent_folder" ⟨"EPSG:5551", false⟩ {0, 1, 2, 3} {0, 1} {1, 2}
    ⟨"a", "pa", "a", ⟨[{0, 1}], some ⟨"EPSG:5551", false⟩⟩⟩
    ⟨"b", "pb", "b", ⟨[{1, 2}], some ⟨"EPSG:5551", false⟩⟩⟩ rfl rfl (by decide)

/-- C4: early termination. As soon as an allocation step - a step on a
non-empty component, the only kind that reaches the break test of lines
118-120, since the empty-component branch continues past it - leaves the
remaining master empty, the loop stops with exactly the records emitted
so far: whatever the list of unprocessed files is, none of them is
visited and none of them gets a record, zero-area or otherwise. -/
theorem early_termination_skips_rest (lnf : String) (mc : CRS) (rem : Geom)
    (f : SourceFile) (rest : List SourceFile) (out : StepOut)
    (hne : f.gdf.features ≠ [])
    (h : processComponent lnf mc rem f = .ok out) (he : out.remaining = ∅) :
    allocLoop lnf mc rem (f :: rest) = .ok ([out.record], out.remaining) := by
  have hfe : f.gdf.features.isEmpty = false := by simpa using hne
  unfold allocLoop
  rw [h]
  simp [hfe, he]

/-- Witness for C4 at a concrete input: the first, non-empty component
exhausts the master and the second file is never visited. -/
theorem early_termination_skips_rest_witness :
    ∃ out,
      processComponent "parent_folder" ⟨"EPSG:5551", false⟩ {0, 1}
          ⟨"a", "pa", "a", ⟨[{0, 1}], some ⟨"EPSG:5551", false⟩⟩⟩ = .ok out ∧
      out.remaining = ∅ ∧
      allocLoop "parent_folder" ⟨"EPSG:5551", false⟩ {0, 1}
          [⟨"a", "pa", "a", ⟨[{0, 1}], some ⟨"EPSG:5551", false⟩⟩⟩,
           ⟨"b", "pb", "b", ⟨[{0}], some ⟨"EPSG:5551", false⟩⟩⟩] =
        .ok ([out.record], out.remaining) := by
  obtain ⟨out, h, he⟩ :
      ∃ out,
        processComponent "parent_folder" ⟨"EPSG:5551", false⟩ {0, 1}
            ⟨"a", "pa", "a", ⟨[{0, 1}], some ⟨"EPSG:5551", false⟩⟩⟩ = .ok out ∧
        out.remaining = ∅ :=
    ⟨_, rfl, by decide⟩
  exact ⟨out, h, he, early_termination_skips_rest _ _ _ _ _ _ (by simp) h he⟩

/-- C5: empty-component path. A component whose loaded geometry set is
empty gets a record with area exactly 0, leaves the remaining master
unchanged, and performs no geometry-engine call at all (its operation
trace is empty); in particular its CRS, even a missing one, is never
inspected. -/
theorem empty_component_emits_zero_without_geometry_work (lnf : String) (mc : CRS)
    (rem : Geom) (f : SourceFile) (hf : f.gdf.features = []) :
    processComponent lnf mc rem f = .ok ⟨⟨layerNameOf lnf f, 0⟩, ∅, rem, []⟩ :=
  processComponent_empty hf

/-- Witness for C5 at a concrete input: an empty component that moreover
declares no CRS. -/
theorem empty_component_emits_zero_without_geometry_work_witness :
    processComponent "parent_folder" ⟨"EPSG:5551", false⟩ {0, 1}
        ⟨"e", "pe", "e", ⟨[], none⟩⟩ = .ok ⟨⟨"pe", 0⟩, ∅, {0, 1}, []⟩ :=
  empty_component_emits_zero_without_geometry_work "parent_folder" ⟨"EPSG:5551", false⟩
    {0, 1} ⟨"e", "pe", "e", ⟨[], none⟩⟩ rfl

end SeqAlloc

namespace SeqAlloc

/-- C6 counterexample: a master that is empty and also declares no CRS.
The run aborts with the empty-master error, not with a missing-CRS
error, although the master declares no CRS - so the claimed "exactly
when" fails without a non-emptiness proviso on the master (the
emptiness check precedes the CRS check, lines 68-71 of
src/intersect.py). -/
theorem missing_crs_iff_counterexample :
    (⟨[], none⟩ : GeoDataFrame).crs = none ∧
    allocate_non_overlapping_areas "parent_folder" false [] ⟨[], none⟩ =
      .error (.valueError emptyMasterMsg) ∧
    ¬ isMissingCRSErr (.valueError emptyMasterMsg) :=
  ⟨rfl, allocate_empty_master "parent_folder" false [] ⟨[], none⟩ rfl,
    emptyMaster_not_missingCRS⟩

/-- C6, amended with the non-empty-master proviso: a non-empty master
with no CRS aborts the run with the missing-CRS error whatever the
component list is (so before any component is processed); a visited
non-empty component with no CRS aborts the whole loop with the
component missing-CRS error whatever files follow it; an empty
component never raises, whatever its CRS; and conversely a run that
aborts with a missing-CRS error has a master with no CRS or some
non-empty component file with no CRS among its inputs. -/
theorem missing_crs_raises_iff (lnf : String) (sl : Bool) (fs : List SourceFile)
    (master : GeoDataFrame) :
    (master.features ≠ [] → master.crs = none →
      allocate_non_overlapping_areas lnf sl fs master =
        .error (.valueError missingCRSMsg)) ∧
    (∀ (mc : CRS) (rem : Geom) (f : SourceFile) (rest : List SourceFile),
      f.gdf.features ≠ [] → f.gdf.crs = none →
      allocLoop lnf mc rem (f :: rest) =
        .error (.valueError (componentMissingCRSMsg f.path))) ∧
    (∀ (mc : CRS) (rem : Geom) (f : SourceFile) (e : PyError),
      f.gdf.features = [] → processComponent lnf mc rem f ≠ .error e) ∧
    (∀ e, allocate_non_overlapping_areas lnf sl fs master = .error e →
      isMissingCRSErr e →
      master.crs = none ∨ ∃ f ∈ fs, f.gdf.features ≠ [] ∧ f.gdf.crs = none) := by
  refine ⟨allocate_master_noCRS lnf sl fs master,
    fun mc rem f rest => allocLoop_head_noCRS lnf mc rem f rest,
    fun mc rem f e hf => ?_, fun e h hmiss => ?_⟩
  · rw [processComponent_empty hf]
    intro hcontra
    cases hcontra
  · rcases allocate_error_facts lnf sl fs master e h with
      ⟨hfe, he⟩ | ⟨hne, hc, he⟩ | ⟨f, hf, hne, hc, he⟩
    · subst he
      exact absurd hmiss emptyMaster_not_missingCRS
    · exact Or.inl hc
    · exact Or.inr ⟨f, hf, hne, hc⟩

/-- Witness for C6 at concrete inputs: a one-feature master with no CRS
aborts whatever the components are; a one-feature component with no CRS
aborts the loop; an empty component with no CRS does not abort; and a
run that aborts with the missing-CRS message has a master with no
CRS. -/
theorem missing_crs_raises_iff_witness :
    allocate_non_overlapping_areas "parent_folder" false
        [⟨"a", "pa", "a", ⟨[{0}], some ⟨"EPSG:5551", false⟩⟩⟩] ⟨[{0}], none⟩ =
      .error (.valueError missingCRSMsg) ∧
    allocLoop "parent_folder" ⟨"EPSG:5551", false⟩ {0, 1}
        [⟨"b", "pb", "b", ⟨[{0}], none⟩⟩] =
      .error (.valueError (componentMissingCRSMsg "b")) ∧
    processComponent "parent_folder" ⟨"EPSG:5551", false⟩ {0, 1}
        ⟨"e", "pe", "e", ⟨[], none⟩⟩ ≠ .error (.valueError missingCRSMsg) ∧
    ((⟨[{0}], none⟩ : GeoDataFrame).crs = none ∨
      ∃ f ∈ ([⟨"a", "pa", "a", ⟨[{0}], some ⟨"EPSG:5551", false⟩⟩⟩] : List SourceFile),
        f.gdf.features ≠ [] ∧ f.gdf.crs = none) := by
  refine ⟨(missing_crs_raises_iff "parent_folder" false _ _).1 (by simp) rfl,
    (missing_crs_raises_iff "parent_folder" false [] ⟨[], none⟩).2.1 _ _ _ [] (by simp) rfl,
    (missing_crs_raises_iff "parent_folder" false [] ⟨[], none⟩).2.2.1 _ _ _ _ rfl,
    (missing_crs_raises_iff "parent_folder" false _ ⟨[{0}], none⟩).2.2.2 _
      ((missing_crs_raises_iff "parent_folder" false _ _).1 (by simp) rfl) (Or.inl rfl)⟩

/-- C7: failing evaluation for the CRS-normalisation constant. The guard
reprojects a geographic layer to the fixed projected CRS EPSG:5551
(line 36 of src/intersect.py), although its own docstring (line 30)
documents World Cylindrical Equal Area, EPSG:6933, as the target:
evaluated on a layer in geographic WGS84 the result carries EPSG:5551,
which is not the documented constant. The rest of the claim behaves as
stated - an already-projected layer passes through unchanged and the
returned CRS is always projected. -/
theorem crs_normalization_uses_undocumented_constant :
    ensure_projected_equal_area ⟨[{0}], some ⟨"EPSG:4326", true⟩⟩ =
      .ok ⟨[{0}], some EPSG5551⟩ ∧
    EPSG5551 ≠ documentedEqualAreaCRS ∧
    ensure_projected_equal_area ⟨[{0}], some ⟨"EPSG:32633", false⟩⟩ =
      .ok ⟨[{0}], some ⟨"EPSG:32633", false⟩⟩ ∧
    EPSG5551.is_geographic = false :=
  ⟨rfl, by decide, rfl, rfl⟩

/-- C8: aggregation rounds after summation. The aggregation stage
produces a duplicate-free key list holding exactly the layer names
occurring in the records, each row holding the one-decimal rounding of
the sum of the area_ha values of the records carrying that name; two
records with the same name yield one row with the rounded sum of their
areas, which in general differs from the sum of their individual
roundings, as 0.03 and 0.03 show. -/
theorem aggregation_rounds_after_summation (rs : List Record) (n : String) (a b : ℚ) :
    ((aggregate rs).map Prod.fst).Nodup ∧
    (∀ m, m ∈ (aggregate rs).map Prod.fst ↔ m ∈ rs.map Record.layer) ∧
    (∀ p ∈ aggregate rs,
      p.2 = round1 (((rs.filter (fun r => decide (r.layer = p.1))).map Record.area_ha).sum)) ∧
    aggregate [⟨n, a⟩, ⟨n, b⟩] = [(n, round1 (a + b))] ∧
    round1 ((3 : ℚ)/100) + round1 ((3 : ℚ)/100) ≠ round1 ((3 : ℚ)/100 + (3 : ℚ)/100) := by
  have hperm : (((rs.map Record.layer).dedup).mergeSort strLe).Perm
      ((rs.map Record.layer).dedup) := List.mergeSort_perm _ strLe
  refine ⟨?_, ?_, ?_, aggregate_pair n a b, round1_distinction⟩
  · rw [aggregate_keys]
    exact hperm.symm.nodup (List.nodup_dedup _)
  · intro m
    rw [aggregate_keys, hperm.mem_iff, List.mem_dedup]
  · intro p hp
    unfold aggregate at hp
    obtain ⟨m, _, hm⟩ := List.mem_map.mp hp
    rw [← hm]

/-- Witness for C8 at a concrete input: the two-record instance in which
rounding after summation (one row of 0.1) differs from summing the
individual roundings (0). -/
theorem aggregation_rounds_after_summation_witness :
    aggregate [⟨"n", (3 : ℚ)/100⟩, ⟨"n", (3 : ℚ)/100⟩] =
      [("n", round1 ((3 : ℚ)/100 + (3 : ℚ)/100))] ∧
    round1 ((3 : ℚ)/100) + round1 ((3 : ℚ)/100) ≠ round1 ((3 : ℚ)/100 + (3 : ℚ)/100) :=
  ⟨(aggregation_rounds_after_summation [] "n" ((3 : ℚ)/100) ((3 : ℚ)/100)).2.2.2.1,
    (aggregation_rounds_after_summation [] "n" ((3 : ℚ)/100) ((3 : ℚ)/100)).2.2.2.2⟩

/-- C9: deterministic default order. With sort_layers set (the default),
the list of component files the loop visits is a permutation of the
discovered files sorted in ascending lexicographic path order, and the
run is reproducible: any two discovery orders of the same files (with
pairwise distinct paths, as on a filesystem) produce identical output
tables. -/
theorem default_order_deterministic (lnf : String) (master : GeoDataFrame)
    (fs fs' : List SourceFile) (hp : fs.Perm fs')
    (hnd : (fs.map SourceFile.path).Nodup) :
    (sortFiles fs).Perm fs ∧
    List.Sorted (fun a b : SourceFile => a.path ≤ b.path) (sortFiles fs) ∧
    allocate_non_overlapping_areas lnf true fs master =
      allocate_non_overlapping_areas lnf true fs' master := by
  refine ⟨sortFiles_perm fs, sortFiles_sorted fs, ?_⟩
  rw [allocate_sorted_eq, allocate_sorted_eq, sortFiles_congr hp hnd]

/-- Witness for C9 at a concrete input: the same two files discovered in
the two possible orders give the same run. -/
theorem default_order_deterministic_witness :
    (sortFiles [⟨"b", "pb", "b", ⟨[{1}], some ⟨"EPSG:5551", false⟩⟩⟩,
        ⟨"a", "pa", "a", ⟨[{0}], some ⟨"EPSG:5551", false⟩⟩⟩]).Perm
      [⟨"b", "pb", "b", ⟨[{1}], some ⟨"EPSG:5551", false⟩⟩⟩,
        ⟨"a", "pa", "a", ⟨[{0}], some ⟨"EPSG:5551", false⟩⟩⟩] ∧
    List.Sorted (fun a b : SourceFile => a.path ≤ b.path)
      (sortFiles [⟨"b", "pb", "b", ⟨[{1}], some ⟨"EPSG:5551", false⟩⟩⟩,
        ⟨"a", "pa", "a", ⟨[{0}], some ⟨"EPSG:5551", false⟩⟩⟩]) ∧
    allocate_non_overlapping_areas "parent_folder" true
        [⟨"b", "pb", "b", ⟨[{1}], some ⟨"EPSG:5551", false⟩⟩⟩,
          ⟨"a", "pa", "a", ⟨[{0}], some ⟨"EPSG:5551", false⟩⟩⟩]
        ⟨[{0, 1}], some ⟨"EPSG:5551", false⟩⟩ =
      allocate_non_overlapping_areas "parent_folder" true
        [⟨"a", "pa", "a", ⟨[{0}], some ⟨"EPSG:5551", false⟩⟩⟩,
          ⟨"b", "pb", "b", ⟨[{1}], some ⟨"EPSG:5551", false⟩⟩⟩]
        ⟨[{0, 1}], some ⟨"EPSG:5551", false⟩⟩ :=
  default_order_deterministic "parent_folder" ⟨[{0, 1}], some ⟨"EPSG:5551", false⟩⟩
    [⟨"b", "pb", "b", ⟨[{1}], some ⟨"EPSG:5551", false⟩⟩⟩,
      ⟨"a", "pa", "a", ⟨[{0}], some ⟨"EPSG:5551", false⟩⟩⟩]
    [⟨"a", "pa", "a", ⟨[{0}], some ⟨"EPSG:5551", false⟩⟩⟩,
      ⟨"b", "pb", "b", ⟨[{1}], some ⟨"EPSG:5551", false⟩⟩⟩]
    (by decide) (by decide)

/-- C10: the emptiness check on the master precedes its CRS check. An
empty master aborts with the empty-master error whatever its CRS, in
particular when it declares none; and the master missing-CRS error can
only arise from a non-empty master that declares no CRS. -/
theorem empty_master_precedes_crs_check (lnf : String) (sl : Bool)
    (fs : List SourceFile) (master : GeoDataFrame) :
    (master.features = [] →
      allocate_non_overlapping_areas lnf sl fs master =
        .error (.valueError emptyMasterMsg)) ∧
    (allocate_non_overlapping_areas lnf sl fs master =
        .error (.valueError missingCRSMsg) →
      master.features ≠ [] ∧ master.crs = none) := by
  refine ⟨allocate_empty_master lnf sl fs master, fun h => ?_⟩
  rcases allocate_error_facts lnf sl fs master _ h with
    ⟨hfe, he⟩ | ⟨hne, hc, _⟩ | ⟨f, _, _, _, he⟩
  · exact absurd he (by decide)
  · exact ⟨hne, hc⟩
  · simp only [PyError.valueError.injEq] at he
    exact absurd he (missingCRSMsg_ne_componentMsg f.path)

/-- Witness for C10 at a concrete input: an empty master with no CRS is
reported as empty, not as missing its CRS; a one-feature master with no
CRS is the only source of the master missing-CRS message. -/
theorem empty_master_precedes_crs_check_witness :
    allocate_non_overlapping_areas "parent_folder" false [] ⟨[], none⟩ =
      .error (.valueError emptyMasterMsg) ∧
    ((⟨[{0}], none⟩ : GeoDataFrame).features ≠ [] ∧
      (⟨[{0}], none⟩ : GeoDataFrame).crs = none) :=
  ⟨(empty_master_precedes_crs_check "parent_folder" false [] ⟨[], none⟩).1 rfl,
    (empty_master_precedes_crs_check "parent_folder" false [] ⟨[{0}], none⟩).2 rfl⟩

end SeqAlloc
